import Mathlib

/-!
# BEAM frame codec — verification of the parser/serializer (src/unnamed/part_000)

Shallow embedding of the BEAM link-layer codec: the manual CRC-16/CCITT engine
(`compute_crc16_per_byte`, `compute_frame_crc`), the payload dispatcher
(`fill_payload`), the frame parser (`parse_into_frame`, `beam_parse_into_frame`)
and the frame serializer (`serialize_frame`, `beam_serialize_frame`).

Modelling conventions:
* machine integers are `Nat` with explicit `% 2^w` exactly where the C code
  truncates on assignment to a `uint16_t`; byte-typed values carry `< 256`
  hypotheses in the theorems;
* byte buffers are `List Nat`; `data[i]` is `data.getD i 0` (all reads proved
  in range under each theorem's preconditions);
* the `beam_payload_t` union is its 200-byte backing store (`MAX_PAYLOAD_SIZE`
  bytes, from `payload_type.h`); all union members start at offset 0, so every
  `memcpy` into a member is a prefix overwrite of that store (`writeBytes`);
* `esp_err_t` is the inductive `esp_err`; out-parameters become explicit state:
  the parser takes the previous contents of `*out` and returns the pair
  (status, new contents), the serializer takes the previous contents of
  `out_buffer` and returns (status, new buffer contents, reported size).
-/

namespace Beam

/-- `FRAME_HEADER_SIZE` (3: msg_id + seq + len), from `src/unnamed/part_000`. -/
def FRAME_HEADER_SIZE : Nat := 3

/-- `FRAME_CRC_SIZE` (2 CRC bytes), from `src/unnamed/part_000`. -/
def FRAME_CRC_SIZE : Nat := 2

/-- `FRAME_SIZE(len)` = header + payload + CRC, from `src/unnamed/part_000`. -/
def FRAME_SIZE (len : Nat) : Nat := FRAME_HEADER_SIZE + len + FRAME_CRC_SIZE

/-- `CRC_INIT` (0xFFFF), from `src/unnamed/part_000`. -/
def CRC_INIT : Nat := 0xFFFF

/-- `CRC_BIT_MASK` (0x8000), from `src/unnamed/part_000`. -/
def CRC_BIT_MASK : Nat := 0x8000

/-- `CRC_POLYNOM` (0x1021), from `src/unnamed/part_000`. -/
def CRC_POLYNOM : Nat := 0x1021

/-- `MAX_PAYLOAD_SIZE` (200), from `src/main/include/payload_type.h`
(the header included by `src/unnamed/part_000`). -/
def MAX_PAYLOAD_SIZE : Nat := 200

/-- `BEAM_FRAME_MIN_SIZE` (5 = 3-byte header + 2 CRC bytes), from
`src/main/include/parser.h`. -/
def BEAM_FRAME_MIN_SIZE : Nat := 5

/-- Message id for telemetry frames. The `MSG_ID_*` defines used by
`src/unnamed/part_000` are not under `src/`; the sibling in-repo enum
`beam_message_category` (message_common.h, inside `src/unnamed/part_002`)
assigns the telemetry category the value 0 and the battery category 1, and
`src/src/beam_parser.c` uses those enum values in the identical dispatcher. -/
def MSG_ID_TELEMETRY : Nat := 0

/-- Message id for battery frames (see `MSG_ID_TELEMETRY`). -/
def MSG_ID_BATTERY : Nat := 1

/-- `sizeof(beam_payload_telemetry_t)`: 3 packed IEEE-754 floats = 12 bytes
(`src/main/include/payload_type.h`). -/
def sizeof_telemetry : Nat := 12

/-- `sizeof(beam_payload_battery_t)`: packed u16 + u16 + u8 = 5 bytes
(`src/main/include/payload_type.h`). -/
def sizeof_battery : Nat := 5

/-- The `esp_err_t` values the codec can return. -/
inductive esp_err where
  | ESP_OK
  | ESP_ERR_INVALID_ARG
  | ESP_ERR_INVALID_SIZE
  | ESP_ERR_INVALID_CRC
  | ESP_ERR_INVALID_STATE
deriving DecidableEq, Repr

open esp_err

/-- One iteration of the bit loop in `compute_crc16_per_byte`
(`src/unnamed/part_000`, lines 50–55): test the MSB, shift left, conditionally
XOR the polynomial; the result is truncated by the `uint16_t` assignment. -/
def crcRound (c : Nat) : Nat :=
  if c &&& CRC_BIT_MASK ≠ 0 then ((c <<< 1) ^^^ CRC_POLYNOM) % 65536
  else (c <<< 1) % 65536

/-- `compute_crc16_per_byte` (`src/unnamed/part_000`, lines 47–58): XOR the
data byte into the high half of the register, then 8 rounds of `crcRound`. -/
def compute_crc16_per_byte (crc data : Nat) : Nat :=
  (List.range 8).foldl (fun c _ => crcRound c) (crc ^^^ (data <<< 8))

/-- `compute_frame_crc` (`src/unnamed/part_000`, lines 68–80): fold
`compute_crc16_per_byte` from `CRC_INIT` over `data[0..2]` and the
`payload_len` payload bytes `data[3..3+payload_len-1]`, i.e. over the first
`FRAME_HEADER_SIZE + payload_len` bytes of the buffer. -/
def compute_frame_crc (data : List Nat) (payload_len : Nat) : Nat :=
  (data.take (FRAME_HEADER_SIZE + payload_len)).foldl compute_crc16_per_byte CRC_INIT

/-- `memcpy(dst, src, src.length)` into offset 0 of the payload store `dst`:
the copied bytes replace the prefix, the rest of the store is untouched. -/
def writeBytes (dst src : List Nat) : List Nat :=
  src ++ dst.drop src.length

/-- `fill_payload` (`src/unnamed/part_000`, lines 94–117): for a known msg_id
with `len` at least the member's size, copy `sizeof(member)` bytes into the
typed member (= the first bytes of the union store); otherwise copy all `len`
bytes into `.raw`. `payload_src` is the byte region starting at the payload
(the C pointer `data + FRAME_HEADER_SIZE`); `payload` is the previous contents
of the destination union. -/
def fill_payload (msg_id : Nat) (payload_src : List Nat) (len : Nat)
    (payload : List Nat) : List Nat :=
  if msg_id = MSG_ID_TELEMETRY then
    if sizeof_telemetry ≤ len then writeBytes payload (payload_src.take sizeof_telemetry)
    else writeBytes payload (payload_src.take len)
  else if msg_id = MSG_ID_BATTERY then
    if sizeof_battery ≤ len then writeBytes payload (payload_src.take sizeof_battery)
    else writeBytes payload (payload_src.take len)
  else writeBytes payload (payload_src.take len)

/-- BEAM frame header (`beam_frame_header_t`, the 3-byte profile of
`src/unnamed/part_002`): msg_id, seq, len, each a byte. -/
structure beam_frame_header where
  msg_id : Nat
  seq : Nat
  len : Nat
deriving DecidableEq, Repr

/-- `beam_frame_t`: header, the payload union's backing store, and the crc
field. -/
structure beam_frame where
  header : beam_frame_header
  payload : List Nat
  crc : Nat
deriving DecidableEq, Repr

/-- Well-formedness of a `beam_frame_t` value as C's types guarantee it:
header fields are bytes, the payload store has `MAX_PAYLOAD_SIZE` cells, each
holding a byte. -/
def beam_frame.Sane (f : beam_frame) : Prop :=
  f.header.msg_id < 256 ∧ f.header.seq < 256 ∧ f.header.len < 256 ∧
    f.payload.length = MAX_PAYLOAD_SIZE ∧ ∀ b ∈ f.payload, b < 256

instance (f : beam_frame) : Decidable f.Sane := by
  unfold beam_frame.Sane; infer_instance

/-- `parse_into_frame` (`src/unnamed/part_000`, lines 133–159). Returns the
status together with the new contents of `*out` (`out` holds the previous
contents; every early return leaves them as they were). -/
def parse_into_frame (data : List Nat) (out : beam_frame) : esp_err × beam_frame :=
  if ¬ FRAME_HEADER_SIZE ≤ data.length then (ESP_ERR_INVALID_SIZE, out)
  else
    let len := data.getD 2 0
    if ¬ len ≤ MAX_PAYLOAD_SIZE then (ESP_ERR_INVALID_SIZE, out)
    else if ¬ FRAME_SIZE len ≤ data.length then (ESP_ERR_INVALID_SIZE, out)
    else
      let expected_crc := compute_frame_crc data len
      let received_crc := data.getD (FRAME_HEADER_SIZE + len) 0 |||
        ((data.getD (FRAME_HEADER_SIZE + len + 1) 0) <<< 8)
      if ¬ expected_crc = received_crc then (ESP_ERR_INVALID_CRC, out)
      else
        (ESP_OK,
          { header := { msg_id := data.getD 0 0, seq := data.getD 1 0, len := len },
            payload := fill_payload (data.getD 0 0) (data.drop FRAME_HEADER_SIZE) len out.payload,
            crc := received_crc })

/-- `beam_parse_into_frame` (`src/unnamed/part_000`, lines 198–207): the
public entry point; `data`/`out_frame` being non-NULL is implicit in the
embedding (a NULL pointer has no `List`/`beam_frame` counterpart; both NULL
checks return before touching `*out_frame`). -/
def beam_parse_into_frame (data : List Nat) (out_frame : beam_frame) :
    esp_err × beam_frame :=
  if ¬ BEAM_FRAME_MIN_SIZE ≤ data.length then (ESP_ERR_INVALID_SIZE, out_frame)
  else parse_into_frame data out_frame

/-- `serialize_frame` (`src/unnamed/part_000`, lines 175–196). `out_buffer`
holds the previous buffer contents (its length is `buffer_size`); the result
carries the status, the new buffer contents, and the value stored through
`out_size` (`none` when nothing is stored). The CRC is computed by reading
back the header+payload bytes just written, exactly as the C does. -/
def serialize_frame (frame : beam_frame) (out_buffer : List Nat) :
    esp_err × List Nat × Option Nat :=
  let required_size := FRAME_SIZE frame.header.len
  if ¬ required_size ≤ out_buffer.length then (ESP_ERR_INVALID_SIZE, out_buffer, none)
  else
    let with_body := writeBytes out_buffer
      ([frame.header.msg_id, frame.header.seq, frame.header.len] ++
        frame.payload.take frame.header.len)
    let crc := compute_frame_crc with_body frame.header.len
    let crc_offset := FRAME_HEADER_SIZE + frame.header.len
    let with_crc := (with_body.set crc_offset (crc &&& 0xFF)).set (crc_offset + 1)
      ((crc >>> 8) &&& 0xFF)
    (ESP_OK, with_crc, some required_size)

/-- `beam_serialize_frame` (`src/unnamed/part_000`, lines 209–218): the public
entry point (NULL checks are implicit in the embedding, see
`beam_parse_into_frame`). -/
def beam_serialize_frame (frame : beam_frame) (out_buffer : List Nat) :
    esp_err × List Nat × Option Nat :=
  if ¬ frame.header.len ≤ MAX_PAYLOAD_SIZE then (ESP_ERR_INVALID_STATE, out_buffer, none)
  else serialize_frame frame out_buffer

/-- The CRC the serializer computes for a frame: the fold over the header
bytes followed by the first `len` payload bytes (derived description, used to
state the serializer's postcondition). -/
def wire_crc (f : beam_frame) : Nat :=
  ([f.header.msg_id, f.header.seq, f.header.len] ++
    f.payload.take f.header.len).foldl compute_crc16_per_byte CRC_INIT

/-- The exact bytes `serialize_frame` writes for a frame: header, `len`
payload bytes, CRC least-significant byte first (derived description, used to
state the serializer's postcondition). -/
def wire_bytes (f : beam_frame) : List Nat :=
  [f.header.msg_id, f.header.seq, f.header.len] ++ f.payload.take f.header.len ++
    [wire_crc f &&& 0xFF, (wire_crc f >>> 8) &&& 0xFF]

/-- The CRC-16/CCITT reference definition, written from the spec's words (the
comparison point for the conformance claim, deliberately NOT copied from the
code): 16-bit register initialized to `0xFFFF`; for each input byte, XOR the
byte into the high 8 bits; then for each of 8 bit positions, remember the bit
shifted out (bit 15 of the register), left-shift by one inside 16 bits, and
XOR with polynomial `0x1021` exactly when that bit was 1. -/
def crc16_ccitt_reference (bytes : List Nat) : Nat :=
  bytes.foldl
    (fun r b =>
      (List.range 8).foldl
        (fun s _ =>
          if s.testBit 15 then ((s <<< 1) % 65536) ^^^ CRC_POLYNOM
          else (s <<< 1) % 65536)
        (r ^^^ ((b % 256) <<< 8)))
    CRC_INIT

/-! ## Bit-level helper lemmas -/

/-- XOR commutes with truncation to `k` bits. -/
theorem xor_mod_two_pow (x y k : Nat) : (x ^^^ y) % 2 ^ k = x % 2 ^ k ^^^ y % 2 ^ k := by
  apply Nat.eq_of_testBit_eq
  intro i
  simp only [Nat.testBit_mod_two_pow, Nat.testBit_xor]
  by_cases h : i < k <;> simp [h]

/-- OR commutes with truncation to `k` bits. -/
theorem or_mod_two_pow (x y k : Nat) : (x ||| y) % 2 ^ k = x % 2 ^ k ||| y % 2 ^ k := by
  apply Nat.eq_of_testBit_eq
  intro i
  simp only [Nat.testBit_mod_two_pow, Nat.testBit_or]
  by_cases h : i < k <;> simp [h]

/-- OR commutes with right shift. -/
theorem or_shiftRight (x y n : Nat) : (x ||| y) >>> n = x >>> n ||| y >>> n := by
  apply Nat.eq_of_testBit_eq
  intro i
  simp [Nat.testBit_shiftRight, Nat.testBit_or]

/-- XOR by a fixed value is left-cancellative. -/
theorem xor_left_cancel (a x y : Nat) (h : a ^^^ x = a ^^^ y) : x = y := by
  have h2 := congrArg (fun z => a ^^^ z) h
  simpa [← Nat.xor_assoc, Nat.xor_self] using h2

/-- XOR by a fixed value is right-cancellative. -/
theorem xor_right_cancel (x y a : Nat) (h : x ^^^ a = y ^^^ a) : x = y := by
  apply xor_left_cancel a
  rw [Nat.xor_comm a x, Nat.xor_comm a y]
  exact h

/-- XOR with a nonzero value changes the value. -/
theorem xor_ne_self (b m : Nat) (hm : m ≠ 0) : b ^^^ m ≠ b := by
  intro h
  apply hm
  have h2 := congrArg (fun z => b ^^^ z) h.symm
  simpa [← Nat.xor_assoc, Nat.xor_self] using h2.symm

/-- The C test `crc & CRC_BIT_MASK` is the test of bit 15. -/
theorem and_mask_ne_zero_iff (c : Nat) : c &&& CRC_BIT_MASK ≠ 0 ↔ c.testBit 15 := by
  have h15 : CRC_BIT_MASK = 2 ^ 15 := by norm_num [CRC_BIT_MASK]
  rw [h15, Nat.and_two_pow]
  cases h : c.testBit 15 <;> simp

/-- For a 16-bit register, bit 15 is set exactly when the value is ≥ 0x8000. -/
theorem testBit_15_iff (c : Nat) (hc : c < 65536) : c.testBit 15 ↔ 32768 ≤ c := by
  rw [Nat.testBit_to_div_mod]
  constructor
  · intro h
    have := of_decide_eq_true h
    omega
  · intro h
    apply decide_eq_true
    omega

/-- XOR commutes with parity. -/
theorem xor_mod_two (x y : Nat) : (x ^^^ y) % 2 = x % 2 ^^^ y % 2 := by
  simpa using xor_mod_two_pow x y 1

/-- Closed form of one CRC bit round on a 16-bit register. -/
theorem crcRound_eq (c : Nat) (hc : c < 65536) :
    crcRound c = if 32768 ≤ c then (2 * c - 65536) ^^^ CRC_POLYNOM else 2 * c := by
  have hcond : (c &&& CRC_BIT_MASK ≠ 0) ↔ 32768 ≤ c :=
    (and_mask_ne_zero_iff c).trans (testBit_15_iff c hc)
  have hs : c <<< 1 = 2 * c := by rw [Nat.shiftLeft_eq]; ring
  unfold crcRound
  by_cases h : 32768 ≤ c
  · rw [if_pos (hcond.mpr h), if_pos h, hs]
    have h16 : (65536 : Nat) = 2 ^ 16 := by norm_num
    rw [h16, xor_mod_two_pow]
    have h1 : 2 * c % 2 ^ 16 = 2 * c - 65536 := by norm_num; omega
    have h2 : CRC_POLYNOM % 2 ^ 16 = CRC_POLYNOM := by norm_num [CRC_POLYNOM]
    rw [h1, h2]
    norm_num
  · rw [if_neg (fun hx => h (hcond.mp hx)), if_neg h, hs]
    omega

/-- Each CRC bit round produces a 16-bit value. -/
theorem crcRound_lt (c : Nat) : crcRound c < 65536 := by
  unfold crcRound
  split <;> exact Nat.mod_lt _ (by norm_num)

/-- Parity of one CRC bit round: the polynomial is odd, the shift is even, so
the round's output parity records whether the polynomial was XORed in. -/
theorem crcRound_parity (c : Nat) (hc : c < 65536) :
    crcRound c % 2 = if 32768 ≤ c then 1 else 0 := by
  rw [crcRound_eq c hc]
  by_cases h : 32768 ≤ c
  · simp only [h, if_true]
    rw [xor_mod_two]
    have he : (2 * c - 65536) % 2 = 0 := by omega
    have hp : CRC_POLYNOM % 2 = 1 := by norm_num [CRC_POLYNOM]
    rw [he, hp]
    decide
  · simp only [h, if_false]
    omega

/-- One CRC bit round is injective on 16-bit values. -/
theorem crcRound_inj (c1 c2 : Nat) (h1 : c1 < 65536) (h2 : c2 < 65536)
    (hne : c1 ≠ c2) : crcRound c1 ≠ crcRound c2 := by
  intro heq
  by_cases hb1 : 32768 ≤ c1 <;> by_cases hb2 : 32768 ≤ c2
  · rw [crcRound_eq c1 h1, crcRound_eq c2 h2] at heq
    simp only [hb1, hb2, if_true] at heq
    have := xor_right_cancel _ _ _ heq
    omega
  · have p1 := crcRound_parity c1 h1
    have p2 := crcRound_parity c2 h2
    rw [heq] at p1
    simp only [hb1, hb2, if_true, if_false] at p1 p2
    omega
  · have p1 := crcRound_parity c1 h1
    have p2 := crcRound_parity c2 h2
    rw [heq] at p1
    simp only [hb1, hb2, if_true, if_false] at p1 p2
    omega
  · rw [crcRound_eq c1 h1, crcRound_eq c2 h2] at heq
    simp only [hb1, hb2, if_false] at heq
    omega

/-- Unfolding of the 8-round bit loop: the last round is applied outermost. -/
theorem crcRounds_succ (n : Nat) (s : Nat) :
    (List.range (n + 1)).foldl (fun c _ => crcRound c) s =
      crcRound ((List.range n).foldl (fun c _ => crcRound c) s) := by
  rw [List.range_succ, List.foldl_append]
  rfl

/-- Iterating the bit round keeps 16-bit bounds and distinctness. -/
theorem crcRounds_inj (n : Nat) (x y : Nat) (hx : x < 65536) (hy : y < 65536)
    (hne : x ≠ y) :
    (List.range n).foldl (fun c _ => crcRound c) x ≠
        (List.range n).foldl (fun c _ => crcRound c) y ∧
      (List.range n).foldl (fun c _ => crcRound c) x < 65536 ∧
      (List.range n).foldl (fun c _ => crcRound c) y < 65536 := by
  induction n with
  | zero => exact ⟨hne, hx, hy⟩
  | succ m ih =>
    obtain ⟨ihne, ihx, ihy⟩ := ih
    rw [crcRounds_succ, crcRounds_succ]
    exact ⟨crcRound_inj _ _ ihx ihy ihne, crcRound_lt _, crcRound_lt _⟩

/-- The per-byte CRC update always produces a 16-bit value. -/
theorem compute_crc16_per_byte_lt (crc data : Nat) :
    compute_crc16_per_byte crc data < 65536 := by
  unfold compute_crc16_per_byte
  rw [show (8 : Nat) = 7 + 1 from rfl, crcRounds_succ]
  exact crcRound_lt _

/-- The per-byte CRC update is injective in the running register. -/
theorem compute_crc16_per_byte_inj_left (b : Nat) (hb : b < 256) (c1 c2 : Nat)
    (h1 : c1 < 65536) (h2 : c2 < 65536) (hne : c1 ≠ c2) :
    compute_crc16_per_byte c1 b ≠ compute_crc16_per_byte c2 b := by
  unfold compute_crc16_per_byte
  have hshift : b <<< 8 < 65536 := by
    rw [Nat.shiftLeft_eq]
    have h256 : (2 : Nat) ^ 8 = 256 := by norm_num
    rw [h256]
    omega
  have hx : c1 ^^^ b <<< 8 < 65536 := by
    have h16 : (65536 : Nat) = 2 ^ 16 := by norm_num
    rw [h16] at h1 hshift ⊢
    exact Nat.xor_lt_two_pow h1 hshift
  have hy : c2 ^^^ b <<< 8 < 65536 := by
    have h16 : (65536 : Nat) = 2 ^ 16 := by norm_num
    rw [h16] at h2 hshift ⊢
    exact Nat.xor_lt_two_pow h2 hshift
  have hne2 : c1 ^^^ b <<< 8 ≠ c2 ^^^ b <<< 8 := fun h => hne (xor_right_cancel _ _ _ h)
  exact (crcRounds_inj 8 _ _ hx hy hne2).1

/-- The per-byte CRC update is injective in the data byte. -/
theorem compute_crc16_per_byte_inj_right (c : Nat) (hc : c < 65536) (b1 b2 : Nat)
    (hb1 : b1 < 256) (hb2 : b2 < 256) (hne : b1 ≠ b2) :
    compute_crc16_per_byte c b1 ≠ compute_crc16_per_byte c b2 := by
  unfold compute_crc16_per_byte
  have hshift : ∀ b : Nat, b < 256 → b <<< 8 < 65536 := by
    intro b hb
    rw [Nat.shiftLeft_eq]
    have h256 : (2 : Nat) ^ 8 = 256 := by norm_num
    rw [h256]
    omega
  have h16 : (65536 : Nat) = 2 ^ 16 := by norm_num
  have hx : c ^^^ b1 <<< 8 < 65536 := by
    rw [h16]
    exact Nat.xor_lt_two_pow (h16 ▸ hc) (h16 ▸ hshift b1 hb1)
  have hy : c ^^^ b2 <<< 8 < 65536 := by
    rw [h16]
    exact Nat.xor_lt_two_pow (h16 ▸ hc) (h16 ▸ hshift b2 hb2)
  have hne2 : c ^^^ b1 <<< 8 ≠ c ^^^ b2 <<< 8 := by
    intro h
    apply hne
    have := xor_left_cancel _ _ _ h
    rw [Nat.shiftLeft_eq, Nat.shiftLeft_eq] at this
    exact Nat.eq_of_mul_eq_mul_right (by norm_num) this
  exact (crcRounds_inj 8 _ _ hx hy hne2).1

/-- A CRC register fold stays within 16 bits. -/
theorem crc_fold_lt (l : List Nat) (c : Nat) (hc : c < 65536) :
    l.foldl compute_crc16_per_byte c < 65536 := by
  induction l generalizing c with
  | nil => exact hc
  | cons b t ih => exact ih _ (compute_crc16_per_byte_lt c b)

/-- Folding the same byte list from distinct 16-bit registers keeps them
distinct (all bytes in range). -/
theorem crc_fold_inj (l : List Nat) (hl : ∀ b ∈ l, b < 256) (c1 c2 : Nat)
    (h1 : c1 < 65536) (h2 : c2 < 65536) (hne : c1 ≠ c2) :
    l.foldl compute_crc16_per_byte c1 ≠ l.foldl compute_crc16_per_byte c2 := by
  induction l generalizing c1 c2 with
  | nil => exact hne
  | cons b t ih =>
    simp only [List.foldl_cons]
    exact ih (fun x hx => hl x (by exact List.mem_cons_of_mem b hx)) _ _
      (compute_crc16_per_byte_lt c1 b) (compute_crc16_per_byte_lt c2 b)
      (compute_crc16_per_byte_inj_left b (hl b (by simp)) c1 c2 h1 h2 hne)

/-- Changing a single byte of the input changes the CRC register fold:
the CRC-16 fold separates byte sequences that differ in exactly one byte. -/
theorem crc_fold_single_diff (xs ys : List Nat) (b1 b2 : Nat) (hb1 : b1 < 256)
    (hb2 : b2 < 256) (hne : b1 ≠ b2) (hys : ∀ b ∈ ys, b < 256) :
    (xs ++ b1 :: ys).foldl compute_crc16_per_byte CRC_INIT ≠
      (xs ++ b2 :: ys).foldl compute_crc16_per_byte CRC_INIT := by
  rw [List.foldl_append, List.foldl_append, List.foldl_cons, List.foldl_cons]
  have hr : xs.foldl compute_crc16_per_byte CRC_INIT < 65536 :=
    crc_fold_lt xs CRC_INIT (by norm_num [CRC_INIT])
  exact crc_fold_inj ys hys _ _ (compute_crc16_per_byte_lt _ _)
    (compute_crc16_per_byte_lt _ _)
    (compute_crc16_per_byte_inj_right _ hr b1 b2 hb1 hb2 hne)

/-- Reassembling a 16-bit CRC from its LSB-first wire bytes gives it back. -/
theorem crc_bytes_recompose (c : Nat) (hc : c < 65536) :
    c &&& 255 ||| (c >>> 8 &&& 255) <<< 8 = c := by
  have h255 : (255 : Nat) = 2 ^ 8 - 1 := by norm_num
  have hlo : c &&& 255 = c % 256 := by
    rw [h255, Nat.and_pow_two_sub_one_eq_mod]
  have hdiv : c >>> 8 = c / 256 := by
    rw [Nat.shiftRight_eq_div_pow]
  have hhi : c >>> 8 &&& 255 = c / 256 := by
    rw [hdiv, h255, Nat.and_pow_two_sub_one_eq_mod]
    have : c / 256 < 256 := by omega
    have h256 : (2 : Nat) ^ 8 = 256 := by norm_num
    rw [h256]
    omega
  rw [hlo, hhi]
  apply Nat.eq_of_testBit_eq
  intro i
  simp only [Nat.testBit_or, Nat.testBit_shiftLeft]
  by_cases h : i < 8
  · have h8 : ¬ 8 ≤ i := by omega
    have hm : (256 : Nat) = 2 ^ 8 := by norm_num
    rw [hm, Nat.testBit_mod_two_pow]
    simp [h, h8]
  · have h8 : 8 ≤ i := by omega
    have hm : (256 : Nat) = 2 ^ 8 := by norm_num
    rw [hm, Nat.testBit_mod_two_pow]
    have hfalse : ¬ i < 8 := h
    have hdivbit : (c / 256).testBit (i - 8) = c.testBit i := by
      rw [hm, ← Nat.shiftRight_eq_div_pow, Nat.testBit_shiftRight]
      congr 1
      omega
    simp [hfalse, h8, hdivbit]

/-- Extracting the low byte of a `lo ||| hi <<< 8` wire value. -/
theorem lor_byte_lo (a h : Nat) (ha : a < 256) : (a ||| h <<< 8) % 256 = a := by
  have hm : (256 : Nat) = 2 ^ 8 := by norm_num
  rw [hm, or_mod_two_pow]
  have h1 : a % 2 ^ 8 = a := by
    apply Nat.mod_eq_of_lt
    norm_num
    omega
  have h2 : h <<< 8 % 2 ^ 8 = 0 := by
    rw [Nat.shiftLeft_eq]
    exact Nat.mul_mod_left h (2 ^ 8)
  rw [h1, h2]
  simp

/-- Extracting the high byte of a `lo ||| hi <<< 8` wire value. -/
theorem lor_byte_hi (a h : Nat) (ha : a < 256) : (a ||| h <<< 8) >>> 8 = h := by
  rw [or_shiftRight]
  have h1 : a >>> 8 = 0 := by
    rw [Nat.shiftRight_eq_div_pow]
    apply Nat.div_eq_of_lt
    norm_num
    omega
  have h2 : h <<< 8 >>> 8 = h := by
    rw [Nat.shiftLeft_eq, Nat.shiftRight_eq_div_pow]
    exact Nat.mul_div_cancel h (by norm_num)
  rw [h1, h2]
  simp

/-- Two wire CRC encodings agree only if both bytes agree. -/
theorem lor_byte_inj (a1 a2 h1 h2 : Nat) (ha1 : a1 < 256) (ha2 : a2 < 256)
    (heq : a1 ||| h1 <<< 8 = a2 ||| h2 <<< 8) : a1 = a2 ∧ h1 = h2 := by
  constructor
  · have := congrArg (fun z => z % 256) heq
    simpa [lor_byte_lo a1 h1 ha1, lor_byte_lo a2 h2 ha2] using this
  · have := congrArg (fun z => z >>> 8) heq
    simpa [lor_byte_hi a1 h1 ha1, lor_byte_hi a2 h2 ha2] using this

/-! ## Code-level helper lemmas -/

/-- `fill_payload` reads at most the first `len` source bytes, so two sources
agreeing on that prefix produce the same payload store. -/
theorem fill_payload_take_congr (msg : Nat) (s t : List Nat) (len : Nat)
    (old : List Nat) (h : s.take len = t.take len) :
    fill_payload msg s len old = fill_payload msg t len old := by
  have key : ∀ k, k ≤ len → s.take k = t.take k := by
    intro k hk
    have h2 : (s.take len).take k = (t.take len).take k := by rw [h]
    simpa [List.take_take, Nat.min_eq_left hk] using h2
  unfold fill_payload
  split_ifs with h1 h2 h3 h4
  · rw [key sizeof_telemetry h2]
  · rw [key len le_rfl]
  · rw [key sizeof_battery h4]
  · rw [key len le_rfl]
  · rw [key len le_rfl]

/-- Bytes of the payload store at or past the copied region are unchanged. -/
theorem writeBytes_getD_high (dst src : List Nat) (j d : Nat)
    (hj : src.length ≤ j) : (writeBytes dst src).getD j d = dst.getD j d := by
  unfold writeBytes
  simp only [List.getD_eq_getElem?_getD]
  rw [List.getElem?_append_right hj]
  congr 1
  rw [List.getElem?_drop]
  congr 1
  omega

/-- What `serialize_frame` writes on success: the wire bytes followed by the
untouched tail of the caller's buffer, and the total size reported. -/
theorem serialize_frame_eq (f : beam_frame) (buf : List Nat)
    (hlen : f.header.len ≤ MAX_PAYLOAD_SIZE)
    (hp : MAX_PAYLOAD_SIZE ≤ f.payload.length)
    (hbuf : FRAME_SIZE f.header.len ≤ buf.length) :
    serialize_frame f buf =
      (ESP_OK, wire_bytes f ++ buf.drop (FRAME_SIZE f.header.len),
        some (FRAME_SIZE f.header.len)) := by
  have hL : f.header.len ≤ f.payload.length := le_trans hlen hp
  have htake : (f.payload.take f.header.len).length = f.header.len := by
    simp [List.length_take]
    omega
  have hbd : ([f.header.msg_id, f.header.seq, f.header.len] ++
      f.payload.take f.header.len).length = FRAME_HEADER_SIZE + f.header.len := by
    simp [htake, FRAME_HEADER_SIZE]
    omega
  have hfs : FRAME_SIZE f.header.len = FRAME_HEADER_SIZE + f.header.len + 2 := rfl
  have hdlen : 2 ≤ (buf.drop (FRAME_HEADER_SIZE + f.header.len)).length := by
    rw [List.length_drop]
    rw [hfs] at hbuf
    omega
  obtain ⟨u, v, t, hd⟩ : ∃ u v t,
      buf.drop (FRAME_HEADER_SIZE + f.header.len) = u :: v :: t := by
    cases hdd : buf.drop (FRAME_HEADER_SIZE + f.header.len) with
    | nil => rw [hdd] at hdlen; simp at hdlen
    | cons u rest =>
      cases rest with
      | nil => rw [hdd] at hdlen; simp at hdlen
      | cons v t => exact ⟨u, v, t, rfl⟩
  have ht : t = buf.drop (FRAME_SIZE f.header.len) := by
    have h2 : (buf.drop (FRAME_HEADER_SIZE + f.header.len)).drop 2 =
        buf.drop (FRAME_SIZE f.header.len) := by
      rw [List.drop_drop]
      congr 1
    rw [hd] at h2
    simpa using h2
  unfold serialize_frame
  rw [if_neg (not_not_intro hbuf)]
  simp only [writeBytes, hbd]
  have hcrc : compute_frame_crc
      (([f.header.msg_id, f.header.seq, f.header.len] ++ f.payload.take f.header.len) ++
        buf.drop (FRAME_HEADER_SIZE + f.header.len)) f.header.len = wire_crc f := by
    unfold compute_frame_crc wire_crc
    rw [List.take_left' hbd]
  rw [show [f.header.msg_id, f.header.seq, f.header.len] ++ f.payload.take f.header.len ++
      buf.drop (FRAME_HEADER_SIZE + f.header.len) =
      ([f.header.msg_id, f.header.seq, f.header.len] ++ f.payload.take f.header.len) ++
        buf.drop (FRAME_HEADER_SIZE + f.header.len) from by simp]
  rw [hcrc, hd]
  rw [List.set_append_right _ _ (by omega)]
  rw [List.set_append_right _ _ (by omega)]
  rw [hbd]
  rw [Nat.sub_self]
  rw [show FRAME_HEADER_SIZE + f.header.len + 1 - (FRAME_HEADER_SIZE + f.header.len) = 1
    from by omega]
  simp only [List.set]
  unfold wire_bytes
  rw [ht]
  simp
/-- Parsing the wire bytes of a frame (with any trailing bytes) succeeds and
produces the dispatched payload and the wire CRC. -/
theorem parse_wire_eq (f f0 : beam_frame) (extra : List Nat)
    (hlen : f.header.len ≤ MAX_PAYLOAD_SIZE)
    (hp : MAX_PAYLOAD_SIZE ≤ f.payload.length) :
    beam_parse_into_frame (wire_bytes f ++ extra) f0 =
      (ESP_OK,
        { header := f.header,
          payload := fill_payload f.header.msg_id f.payload f.header.len f0.payload,
          crc := wire_crc f }) := by
  have hL : f.header.len ≤ f.payload.length := le_trans hlen hp
  have htake : (f.payload.take f.header.len).length = f.header.len := by
    simp [List.length_take]
    omega
  have hbd : ([f.header.msg_id, f.header.seq, f.header.len] ++
      f.payload.take f.header.len).length = FRAME_HEADER_SIZE + f.header.len := by
    simp [htake, FRAME_HEADER_SIZE]
    omega
  have hD : wire_bytes f ++ extra =
      ([f.header.msg_id, f.header.seq, f.header.len] ++ f.payload.take f.header.len) ++
        ([wire_crc f &&& 0xFF, (wire_crc f >>> 8) &&& 0xFF] ++ extra) := by
    unfold wire_bytes
    simp
  have hlenD : (wire_bytes f ++ extra).length =
      FRAME_SIZE f.header.len + extra.length := by
    rw [hD]
    simp only [List.length_append, hbd]
    simp [FRAME_SIZE, FRAME_CRC_SIZE]
    omega
  have hget2 : (wire_bytes f ++ extra).getD 2 0 = f.header.len := by
    unfold wire_bytes
    simp [List.getD]
  have hget0 : (wire_bytes f ++ extra).getD 0 0 = f.header.msg_id := by
    unfold wire_bytes
    simp [List.getD]
  have hget1 : (wire_bytes f ++ extra).getD 1 0 = f.header.seq := by
    unfold wire_bytes
    simp [List.getD]
  have hcrclt : wire_crc f < 65536 := crc_fold_lt _ _ (by norm_num [CRC_INIT])
  have hexp : compute_frame_crc (wire_bytes f ++ extra) f.header.len = wire_crc f := by
    unfold compute_frame_crc wire_crc
    rw [hD, List.take_left' hbd]
  have hrecv0 : (wire_bytes f ++ extra).getD (FRAME_HEADER_SIZE + f.header.len) 0 =
      wire_crc f &&& 0xFF := by
    rw [hD]
    simp only [List.getD_eq_getElem?_getD]
    rw [List.getElem?_append_right (by omega)]
    rw [hbd]
    simp
  have hrecv1 : (wire_bytes f ++ extra).getD (FRAME_HEADER_SIZE + f.header.len + 1) 0 =
      (wire_crc f >>> 8) &&& 0xFF := by
    rw [hD]
    simp only [List.getD_eq_getElem?_getD]
    rw [List.getElem?_append_right (by omega)]
    rw [hbd]
    simp
  have hrecv : (wire_bytes f ++ extra).getD (FRAME_HEADER_SIZE + f.header.len) 0 |||
      ((wire_bytes f ++ extra).getD (FRAME_HEADER_SIZE + f.header.len + 1) 0) <<< 8 =
      wire_crc f := by
    rw [hrecv0, hrecv1]
    exact crc_bytes_recompose _ hcrclt
  have hfill : fill_payload f.header.msg_id
      ((wire_bytes f ++ extra).drop FRAME_HEADER_SIZE) f.header.len f0.payload =
      fill_payload f.header.msg_id f.payload f.header.len f0.payload := by
    apply fill_payload_take_congr
    rw [hD]
    rw [show (([f.header.msg_id, f.header.seq, f.header.len] ++
        f.payload.take f.header.len) ++
          ([wire_crc f &&& 0xFF, (wire_crc f >>> 8) &&& 0xFF] ++ extra)).drop
            FRAME_HEADER_SIZE =
        f.payload.take f.header.len ++
          ([wire_crc f &&& 0xFF, (wire_crc f >>> 8) &&& 0xFF] ++ extra)
      from by simp [FRAME_HEADER_SIZE]]
    rw [List.take_append_of_le_length (by omega)]
    rw [List.take_take]
    simp
  unfold beam_parse_into_frame parse_into_frame
  rw [if_neg (not_not_intro (by
    rw [hlenD]
    simp only [BEAM_FRAME_MIN_SIZE, FRAME_SIZE, FRAME_HEADER_SIZE, FRAME_CRC_SIZE]
    omega))]
  simp only [hget0, hget1, hget2]
  rw [if_neg (not_not_intro (by
    rw [hlenD]
    simp only [FRAME_SIZE, FRAME_HEADER_SIZE, FRAME_CRC_SIZE]
    omega))]
  rw [if_neg (not_not_intro hlen)]
  rw [if_neg (not_not_intro (by
    rw [hlenD]
    simp only [FRAME_SIZE, FRAME_HEADER_SIZE, FRAME_CRC_SIZE]
    omega))]
  rw [hexp, hrecv]
  rw [if_neg (not_not_intro rfl)]
  rw [hfill]

/-- The 3-byte header bound is below the public minimum frame size. -/
theorem header_le_min : FRAME_HEADER_SIZE ≤ BEAM_FRAME_MIN_SIZE := by
  norm_num [FRAME_HEADER_SIZE, BEAM_FRAME_MIN_SIZE]

/-- A buffer below `BEAM_FRAME_MIN_SIZE` is rejected at the public entry. -/
theorem parse_too_short_eval (data : List Nat) (f0 : beam_frame)
    (h : data.length < BEAM_FRAME_MIN_SIZE) :
    beam_parse_into_frame data f0 = (ESP_ERR_INVALID_SIZE, f0) := by
  unfold beam_parse_into_frame
  rw [if_pos (by omega)]

/-- A declared length above `MAX_PAYLOAD_SIZE` is rejected with `InvalidSize`
(whatever the rest of the buffer holds). -/
theorem parse_len_over_eval (data : List Nat) (f0 : beam_frame)
    (hmax : MAX_PAYLOAD_SIZE < data.getD 2 0) :
    beam_parse_into_frame data f0 = (ESP_ERR_INVALID_SIZE, f0) := by
  by_cases hmin : data.length < BEAM_FRAME_MIN_SIZE
  · exact parse_too_short_eval data f0 hmin
  · simp only [beam_parse_into_frame, parse_into_frame]
    rw [if_neg (not_not_intro (by omega))]
    rw [if_neg (not_not_intro (by have := header_le_min; omega))]
    rw [if_pos (by omega)]

/-- A buffer shorter than the declared frame is rejected with `InvalidSize`. -/
theorem parse_bad_size_eval (data : List Nat) (f0 : beam_frame)
    (hmin : BEAM_FRAME_MIN_SIZE ≤ data.length)
    (hmax : data.getD 2 0 ≤ MAX_PAYLOAD_SIZE)
    (hsz : data.length < FRAME_SIZE (data.getD 2 0)) :
    beam_parse_into_frame data f0 = (ESP_ERR_INVALID_SIZE, f0) := by
  simp only [beam_parse_into_frame, parse_into_frame]
  rw [if_neg (not_not_intro hmin)]
  rw [if_neg (not_not_intro (by have := header_le_min; omega))]
  rw [if_neg (not_not_intro hmax)]
  rw [if_pos (by omega)]

/-- A well-sized buffer whose stored CRC disagrees with the computed CRC is
rejected with `InvalidCRC`. -/
theorem parse_invalid_crc_eval (data : List Nat) (f0 : beam_frame)
    (hmin : BEAM_FRAME_MIN_SIZE ≤ data.length)
    (hmax : data.getD 2 0 ≤ MAX_PAYLOAD_SIZE)
    (hsz : FRAME_SIZE (data.getD 2 0) ≤ data.length)
    (hne : compute_frame_crc data (data.getD 2 0) ≠
      data.getD (FRAME_HEADER_SIZE + data.getD 2 0) 0 |||
        (data.getD (FRAME_HEADER_SIZE + data.getD 2 0 + 1) 0) <<< 8) :
    beam_parse_into_frame data f0 = (ESP_ERR_INVALID_CRC, f0) := by
  simp only [beam_parse_into_frame, parse_into_frame]
  rw [if_neg (not_not_intro hmin)]
  rw [if_neg (not_not_intro (by have := header_le_min; omega))]
  rw [if_neg (not_not_intro hmax)]
  rw [if_neg (not_not_intro hsz)]
  rw [if_pos hne]

/-- Inversion of a successful parse: every check passed. -/
theorem parse_ok_elim (data : List Nat) (f0 : beam_frame)
    (h : (beam_parse_into_frame data f0).1 = ESP_OK) :
    BEAM_FRAME_MIN_SIZE ≤ data.length ∧
      data.getD 2 0 ≤ MAX_PAYLOAD_SIZE ∧
      FRAME_SIZE (data.getD 2 0) ≤ data.length ∧
      compute_frame_crc data (data.getD 2 0) =
        data.getD (FRAME_HEADER_SIZE + data.getD 2 0) 0 |||
          (data.getD (FRAME_HEADER_SIZE + data.getD 2 0 + 1) 0) <<< 8 := by
  simp only [beam_parse_into_frame, parse_into_frame] at h
  split_ifs at h with h1 h2 h3 h4 h5
  all_goals simp at h
  exact ⟨h1, h3, h4, h5⟩

/-- Reading inside the taken prefix sees the original list. -/
theorem getD_take (l : List Nat) (i n d : Nat) (h : i < n) :
    (l.take n).getD i d = l.getD i d := by
  simp only [List.getD_eq_getElem?_getD]
  rw [List.getElem?_take, if_pos h]

/-- Reading away from the written cell sees the original list. -/
theorem getD_set_ne (l : List Nat) (i j a d : Nat) (h : i ≠ j) :
    (l.set i a).getD j d = l.getD j d := by
  simp only [List.getD_eq_getElem?_getD]
  rw [List.getElem?_set_ne h]

/-- Reading the written cell sees the new value. -/
theorem getD_set_self (l : List Nat) (i a d : Nat) (h : i < l.length) :
    (l.set i a).getD i d = a := by
  simp only [List.getD_eq_getElem?_getD]
  rw [List.getElem?_set_self h]
  rfl

/-- Overwriting one in-range byte with a different byte value changes the CRC
register fold. -/
theorem crc_fold_set_ne (l : List Nat) (i : Nat) (b' : Nat)
    (hl : ∀ b ∈ l, b < 256) (hb' : b' < 256) (hi : i < l.length)
    (hne : b' ≠ l.getD i 0) :
    (l.set i b').foldl compute_crc16_per_byte CRC_INIT ≠
      l.foldl compute_crc16_per_byte CRC_INIT := by
  have hset : l.set i b' = l.take i ++ b' :: l.drop (i + 1) := by
    rw [List.set_eq_take_append_cons_drop, if_pos hi]
  have hl2 : l = l.take i ++ l.getD i 0 :: l.drop (i + 1) := by
    conv_lhs => rw [← List.take_append_drop i l]
    congr 1
    rw [List.getD_eq_getElem _ _ hi]
    exact List.drop_eq_getElem_cons hi
  rw [hset]
  conv_rhs => rw [hl2]
  apply crc_fold_single_diff _ _ _ _ hb'
    (by rw [List.getD_eq_getElem _ _ hi]; exact hl _ (List.getElem_mem _))
    hne
    (fun b hb => hl b (List.mem_of_mem_drop hb))

/-- C5 (amended): flipping any single bit of an exact-size valid serialized
frame at any byte other than the length byte (offset 2) makes
`beam_parse_into_frame` return `InvalidCRC`. (Flipping a bit of the length
byte can instead fail the size checks — see the counterexample.) -/
theorem C5_bitflip_invalid_crc (data : List Nat) (f0 f1 : beam_frame) (i k : Nat)
    (hbytes : ∀ b ∈ data, b < 256)
    (hexact : data.length = FRAME_SIZE (data.getD 2 0))
    (hok : (beam_parse_into_frame data f0).1 = ESP_OK)
    (hi : i < data.length) (hne2 : i ≠ 2) (hk : k < 8) :
    beam_parse_into_frame (data.set i (data.getD i 0 ^^^ 1 <<< k)) f1 =
      (ESP_ERR_INVALID_CRC, f1) := by
  obtain ⟨hmin, hmax, hsz, hcrc⟩ := parse_ok_elim data f0 hok
  have hfs : FRAME_SIZE (data.getD 2 0) =
      FRAME_HEADER_SIZE + data.getD 2 0 + 2 := rfl
  have hb : data.getD i 0 < 256 := by
    rw [List.getD_eq_getElem _ _ hi]
    exact hbytes _ (List.getElem_mem _)
  have hpow : (1 <<< k : Nat) = 2 ^ k := by
    rw [Nat.shiftLeft_eq]
    ring
  have hpowlt : (1 <<< k : Nat) < 256 := by
    rw [hpow]
    have h7 : (2 : Nat) ^ k ≤ 2 ^ 7 := Nat.pow_le_pow_right (by norm_num) (by omega)
    omega
  have hb' : data.getD i 0 ^^^ 1 <<< k < 256 := by
    have h8 : (256 : Nat) = 2 ^ 8 := by norm_num
    rw [h8]
    exact Nat.xor_lt_two_pow (h8 ▸ hb) (h8 ▸ hpowlt)
  have hbne : data.getD i 0 ^^^ 1 <<< k ≠ data.getD i 0 := by
    apply xor_ne_self
    rw [hpow]
    exact (Nat.pow_pos (by norm_num)).ne'
  have hget2 : (data.set i (data.getD i 0 ^^^ 1 <<< k)).getD 2 0 = data.getD 2 0 :=
    getD_set_ne data i 2 _ 0 hne2
  apply parse_invalid_crc_eval
  · rw [List.length_set]
    exact hmin
  · rw [hget2]
    exact hmax
  · rw [hget2, List.length_set]
    exact hsz
  · rw [hget2]
    by_cases hcov : i < FRAME_HEADER_SIZE + data.getD 2 0
    · rw [getD_set_ne data i _ _ 0 (by omega), getD_set_ne data i _ _ 0 (by omega)]
      rw [← hcrc]
      unfold compute_frame_crc
      rw [List.set_take]
      have hnle : FRAME_HEADER_SIZE + data.getD 2 0 ≤ data.length := by
        rw [hexact, hfs]
        omega
      have hlnlen : (data.take (FRAME_HEADER_SIZE + data.getD 2 0)).length =
          FRAME_HEADER_SIZE + data.getD 2 0 := by
        rw [List.length_take]
        omega
      apply crc_fold_set_ne
      · exact fun b hb => hbytes b (List.mem_of_mem_take hb)
      · exact hb'
      · omega
      · rw [getD_take _ _ _ _ hcov]
        exact hbne
    · have hcases : i = FRAME_HEADER_SIZE + data.getD 2 0 ∨
          i = FRAME_HEADER_SIZE + data.getD 2 0 + 1 := by
        rw [hexact, hfs] at hi
        omega
      have hexp : compute_frame_crc (data.set i (data.getD i 0 ^^^ 1 <<< k))
          (data.getD 2 0) = compute_frame_crc data (data.getD 2 0) := by
        unfold compute_frame_crc
        rw [List.set_take]
        rw [List.set_eq_of_length_le]
        rw [List.length_take]
        omega
      rw [hexp, hcrc]
      rcases hcases with hcase | hcase
      · rw [hcase]
        rw [getD_set_self data _ _ 0 (by omega)]
        rw [getD_set_ne data _ _ _ 0 (by omega)]
        intro heq
        have hlo := (lor_byte_inj _ _ _ _
          (by rw [List.getD_eq_getElem _ _ (by omega : FRAME_HEADER_SIZE + data.getD 2 0 < data.length)]
              exact hbytes _ (List.getElem_mem _))
          (hcase ▸ hb') heq).1
        exact hbne (hcase ▸ hlo.symm)
      · rw [hcase]
        rw [getD_set_self data _ _ 0 (by omega)]
        rw [getD_set_ne data _ _ _ 0 (by omega)]
        intro heq
        have hhi := (lor_byte_inj _ _ _ _
          (by rw [List.getD_eq_getElem _ _ (by omega : FRAME_HEADER_SIZE + data.getD 2 0 < data.length)]
              exact hbytes _ (List.getElem_mem _))
          (by rw [List.getD_eq_getElem _ _ (by omega : FRAME_HEADER_SIZE + data.getD 2 0 < data.length)]
              exact hbytes _ (List.getElem_mem _)) heq).2
        exact hbne (hcase ▸ hhi.symm)

/-- One byte of the code's CRC engine equals one byte of the spec's reference
definition (the byte in range, as `uint8_t` guarantees). -/
theorem compute_crc16_per_byte_eq_reference (c b : Nat) (hb : b < 256) :
    compute_crc16_per_byte c b =
      (List.range 8).foldl
        (fun s _ =>
          if s.testBit 15 then ((s <<< 1) % 65536) ^^^ CRC_POLYNOM
          else (s <<< 1) % 65536)
        (c ^^^ ((b % 256) <<< 8)) := by
  unfold compute_crc16_per_byte
  rw [Nat.mod_eq_of_lt hb]
  have hfn : (fun (c : Nat) (_ : Nat) => crcRound c) =
      (fun (s : Nat) (_ : Nat) =>
        if s.testBit 15 then ((s <<< 1) % 65536) ^^^ CRC_POLYNOM
        else (s <<< 1) % 65536) := by
    funext s x
    unfold crcRound
    by_cases hbit : s.testBit 15
    · rw [if_pos ((and_mask_ne_zero_iff s).mpr hbit), if_pos hbit]
      have h16 : (65536 : Nat) = 2 ^ 16 := by norm_num
      rw [h16, xor_mod_two_pow]
      congr 1
    · rw [if_neg (fun hx => hbit ((and_mask_ne_zero_iff s).mp hx)), if_neg hbit]
  rw [hfn]

/-- Folding the code's CRC engine over in-range bytes equals folding the
spec's reference step. -/
theorem crc_fold_eq_reference (l : List Nat) (hl : ∀ b ∈ l, b < 256) (c : Nat) :
    l.foldl compute_crc16_per_byte c =
      l.foldl
        (fun r b =>
          (List.range 8).foldl
            (fun s _ =>
              if s.testBit 15 then ((s <<< 1) % 65536) ^^^ CRC_POLYNOM
              else (s <<< 1) % 65536)
            (r ^^^ ((b % 256) <<< 8)))
        c := by
  induction l generalizing c with
  | nil => rfl
  | cons b t ih =>
    simp only [List.foldl_cons]
    rw [compute_crc16_per_byte_eq_reference c b (hl b (by simp))]
    exact ih (fun x hx => hl x (List.mem_cons_of_mem b hx)) _

/-- C2: the CRC engine (`compute_frame_crc` built from
`compute_crc16_per_byte`) computes, on every byte sequence it is given (the
header and `payload_len` payload bytes, each a `uint8_t` value), exactly the
CRC-16/CCITT reference definition: register initialized to 0xFFFF, each byte
XORed into the high 8 bits, then 8 iterations of left shift with XOR against
polynomial 0x1021 whenever the bit shifted out was 1. Determinism/purity is
inherent: both sides are functions of the input bytes alone. -/
theorem C2_crc_engine_conformance (data : List Nat) (payload_len : Nat)
    (hbytes : ∀ b ∈ data, b < 256) :
    compute_frame_crc data payload_len =
      crc16_ccitt_reference (data.take (FRAME_HEADER_SIZE + payload_len)) := by
  unfold compute_frame_crc crc16_ccitt_reference
  exact crc_fold_eq_reference _
    (fun b hb => hbytes b (List.mem_of_mem_take hb)) _

/-- C2 witness: the conformance theorem evaluated on a concrete byte buffer. -/
theorem C2_crc_engine_conformance_witness :
    compute_frame_crc [1, 2, 3, 4, 5, 250] 2 =
      crc16_ccitt_reference ([1, 2, 3, 4, 5, 250].take (FRAME_HEADER_SIZE + 2)) :=
  C2_crc_engine_conformance [1, 2, 3, 4, 5, 250] 2 (by decide)

/-- C3: the payload dispatcher `fill_payload` is total and: a known category
with sufficient length fills the typed member from the first fixed-size bytes
(the prefix of the union store); a known category with a shorter length, and
any unknown category, copy all `len` bytes verbatim into `.raw`; in
particular a Telemetry payload of length 4 is handled exactly as an unknown
(Raw) one, never as a partial Telemetry. -/
theorem C3_fill_payload_dispatch (msg_id : Nat) (src old : List Nat) (len : Nat) :
    (msg_id = MSG_ID_TELEMETRY → sizeof_telemetry ≤ len →
      fill_payload msg_id src len old = writeBytes old (src.take sizeof_telemetry)) ∧
    (msg_id = MSG_ID_BATTERY → sizeof_battery ≤ len →
      fill_payload msg_id src len old = writeBytes old (src.take sizeof_battery)) ∧
    (msg_id = MSG_ID_TELEMETRY → len < sizeof_telemetry →
      fill_payload msg_id src len old = writeBytes old (src.take len)) ∧
    (msg_id = MSG_ID_BATTERY → len < sizeof_battery →
      fill_payload msg_id src len old = writeBytes old (src.take len)) ∧
    (msg_id ≠ MSG_ID_TELEMETRY → msg_id ≠ MSG_ID_BATTERY →
      fill_payload msg_id src len old = writeBytes old (src.take len)) ∧
    (msg_id = MSG_ID_TELEMETRY → len = 4 →
      fill_payload msg_id src len old = fill_payload 255 src len old) := by
  refine ⟨?_, ?_, ?_, ?_, ?_, ?_⟩
  · intro h1 h2
    unfold fill_payload
    rw [if_pos h1, if_pos h2]
  · intro h1 h2
    unfold fill_payload
    rw [if_neg (by rw [h1]; norm_num [MSG_ID_BATTERY, MSG_ID_TELEMETRY]),
      if_pos h1, if_pos h2]
  · intro h1 h2
    unfold fill_payload
    rw [if_pos h1, if_neg (by omega)]
  · intro h1 h2
    unfold fill_payload
    rw [if_neg (by rw [h1]; norm_num [MSG_ID_BATTERY, MSG_ID_TELEMETRY]),
      if_pos h1, if_neg (by omega)]
  · intro h1 h2
    unfold fill_payload
    rw [if_neg h1, if_neg h2]
  · intro h1 h2
    unfold fill_payload
    rw [if_pos h1, if_neg (by norm_num [sizeof_telemetry]; omega),
      if_neg (by norm_num [MSG_ID_TELEMETRY]),
      if_neg (by norm_num [MSG_ID_BATTERY])]

/-- C3 witness: a Telemetry payload of length 4 goes down the Raw path. -/
theorem C3_fill_payload_dispatch_witness :
    fill_payload MSG_ID_TELEMETRY [9, 8, 7, 6] 4 [0, 0, 0, 0, 0, 0, 0, 0] =
      writeBytes [0, 0, 0, 0, 0, 0, 0, 0] ([9, 8, 7, 6].take 4) :=
  (C3_fill_payload_dispatch MSG_ID_TELEMETRY [9, 8, 7, 6] [0, 0, 0, 0, 0, 0, 0, 0] 4).2.2.1
    rfl (by decide)

/-- Evaluation of a successful parse: all checks pass, and the output frame
is built from the buffer reads. -/
theorem parse_ok_eval (data : List Nat) (f0 : beam_frame)
    (hmin : BEAM_FRAME_MIN_SIZE ≤ data.length)
    (hmax : data.getD 2 0 ≤ MAX_PAYLOAD_SIZE)
    (hsz : FRAME_SIZE (data.getD 2 0) ≤ data.length)
    (hcrc : compute_frame_crc data (data.getD 2 0) =
      data.getD (FRAME_HEADER_SIZE + data.getD 2 0) 0 |||
        (data.getD (FRAME_HEADER_SIZE + data.getD 2 0 + 1) 0) <<< 8) :
    beam_parse_into_frame data f0 =
      (ESP_OK,
        { header :=
            { msg_id := data.getD 0 0
              seq := data.getD 1 0
              len := data.getD 2 0 }
          payload := fill_payload (data.getD 0 0) (data.drop FRAME_HEADER_SIZE)
            (data.getD 2 0) f0.payload
          crc := data.getD (FRAME_HEADER_SIZE + data.getD 2 0) 0 |||
            (data.getD (FRAME_HEADER_SIZE + data.getD 2 0 + 1) 0) <<< 8 }) := by
  simp only [beam_parse_into_frame, parse_into_frame]
  rw [if_neg (not_not_intro hmin)]
  rw [if_neg (not_not_intro (by have := header_le_min; omega))]
  rw [if_neg (not_not_intro hmax)]
  rw [if_neg (not_not_intro hsz)]
  rw [if_neg (not_not_intro hcrc)]

/-- C7: on every failure path the parser leaves the output frame exactly as
it was; on success it fully populates the header fields, the payload store
(via the dispatcher) and the crc field from the buffer. The NULL-argument
failures of `beam_parse_into_frame` return before touching `*out_frame` and
have no counterpart in the embedding. -/
theorem C7_no_partial_mutation (data : List Nat) (f0 : beam_frame) :
    ((beam_parse_into_frame data f0).1 ≠ ESP_OK →
      (beam_parse_into_frame data f0).2 = f0) ∧
    ((beam_parse_into_frame data f0).1 = ESP_OK →
      (beam_parse_into_frame data f0).2 =
        { header :=
            { msg_id := data.getD 0 0
              seq := data.getD 1 0
              len := data.getD 2 0 }
          payload := fill_payload (data.getD 0 0) (data.drop FRAME_HEADER_SIZE)
            (data.getD 2 0) f0.payload
          crc := data.getD (FRAME_HEADER_SIZE + data.getD 2 0) 0 |||
            (data.getD (FRAME_HEADER_SIZE + data.getD 2 0 + 1) 0) <<< 8 }) := by
  constructor
  · intro hne
    simp only [beam_parse_into_frame, parse_into_frame] at hne ⊢
    split_ifs at hne ⊢ with h1 h2 h3 h4 h5
    all_goals first
      | rfl
      | simp at hne
  · intro hok
    obtain ⟨hmin, hmax, hsz, hcrc⟩ := parse_ok_elim data f0 hok
    rw [parse_ok_eval data f0 hmin hmax hsz hcrc]

/-- C7 witness: a too-short buffer leaves the output frame unchanged. -/
theorem C7_no_partial_mutation_witness :
    (beam_parse_into_frame [1, 2]
        ⟨⟨4, 5, 6⟩, [7, 8], 9⟩).2 = ⟨⟨4, 5, 6⟩, [7, 8], 9⟩ :=
  (C7_no_partial_mutation [1, 2] ⟨⟨4, 5, 6⟩, [7, 8], 9⟩).1 (by decide)

/-- Inversion of a successful serialize: both checks passed. -/
theorem serialize_ok_elim (f : beam_frame) (buf : List Nat)
    (h : (beam_serialize_frame f buf).1 = ESP_OK) :
    f.header.len ≤ MAX_PAYLOAD_SIZE ∧ FRAME_SIZE f.header.len ≤ buf.length := by
  simp only [beam_serialize_frame, serialize_frame] at h
  split_ifs at h with h1 h2
  all_goals simp at h
  exact ⟨h1, h2⟩

/-- C8: whenever `beam_serialize_frame` succeeds on a (well-typed) frame with
`header.len = L`, the output buffer starts with the header bytes at their
fixed offsets, exactly `L` payload bytes, and the CRC over header+payload as
the final two frame bytes least-significant byte first; exactly
`FRAME_SIZE L = header_size + L + 2` bytes are reported written; bytes of the
buffer past the frame are untouched and the buffer keeps its size (nothing is
written outside it). -/
theorem C8_serializer_output (f : beam_frame) (buf : List Nat)
    (hs : f.Sane) (hok : (beam_serialize_frame f buf).1 = ESP_OK) :
    beam_serialize_frame f buf =
      (ESP_OK,
        ([f.header.msg_id, f.header.seq, f.header.len] ++
          f.payload.take f.header.len ++
          [wire_crc f &&& 0xFF, (wire_crc f >>> 8) &&& 0xFF]) ++
          buf.drop (FRAME_SIZE f.header.len),
        some (FRAME_SIZE f.header.len)) ∧
    (beam_serialize_frame f buf).2.1.length = buf.length := by
  obtain ⟨hlen, hbuf⟩ := serialize_ok_elim f buf hok
  have hp : MAX_PAYLOAD_SIZE ≤ f.payload.length := le_of_eq hs.2.2.2.1.symm
  have heq : beam_serialize_frame f buf =
      (ESP_OK, wire_bytes f ++ buf.drop (FRAME_SIZE f.header.len),
        some (FRAME_SIZE f.header.len)) := by
    unfold beam_serialize_frame
    rw [if_neg (not_not_intro hlen)]
    exact serialize_frame_eq f buf hlen hp hbuf
  constructor
  · rw [heq]
    rfl
  · rw [heq]
    have htake : (f.payload.take f.header.len).length = f.header.len := by
      simp [List.length_take]
      omega
    have hwlen : (wire_bytes f).length = FRAME_SIZE f.header.len := by
      unfold wire_bytes
      simp [htake, FRAME_SIZE, FRAME_HEADER_SIZE, FRAME_CRC_SIZE]
      omega
    simp only [List.length_append, hwlen, List.length_drop]
    omega

set_option maxRecDepth 4000 in
/-- C8 witness: the postcondition evaluated on a concrete frame and buffer. -/
theorem C8_serializer_output_witness :
    beam_serialize_frame
        ⟨⟨7, 3, 2⟩, 10 :: 20 :: List.replicate 198 0, 0⟩ (List.replicate 9 255) =
      (ESP_OK,
        ([(7 : Nat), 3, 2] ++
          (10 :: 20 :: List.replicate 198 0).take 2 ++
          [wire_crc ⟨⟨7, 3, 2⟩, 10 :: 20 :: List.replicate 198 0, 0⟩ &&& 0xFF,
            (wire_crc ⟨⟨7, 3, 2⟩, 10 :: 20 :: List.replicate 198 0, 0⟩ >>> 8) &&& 0xFF]) ++
          (List.replicate 9 255).drop (FRAME_SIZE 2),
        some (FRAME_SIZE 2)) ∧
    (beam_serialize_frame
        ⟨⟨7, 3, 2⟩, 10 :: 20 :: List.replicate 198 0, 0⟩ (List.replicate 9 255)).2.1.length =
      (List.replicate 9 (255 : Nat)).length :=
  C8_serializer_output ⟨⟨7, 3, 2⟩, 10 :: 20 :: List.replicate 198 0, 0⟩
    (List.replicate 9 255) (by decide) (by decide)

/-- C9: parsing only looks at the first `header_size + declared_len + 2`
bytes: if that prefix parses successfully, the full buffer parses to exactly
the same result, whatever trailing bytes follow (the length check is `≥`, and
the CRC is read at the offset fixed by the declared length). -/
theorem C9_trailing_bytes_ignored (data : List Nat) (f0 : beam_frame)
    (hok : (beam_parse_into_frame (data.take (FRAME_SIZE (data.getD 2 0))) f0).1 =
      ESP_OK) :
    (beam_parse_into_frame data f0).1 = ESP_OK ∧
    beam_parse_into_frame data f0 =
      beam_parse_into_frame (data.take (FRAME_SIZE (data.getD 2 0))) f0 := by
  have hfs : FRAME_SIZE (data.getD 2 0) = 3 + data.getD 2 0 + 2 := rfl
  suffices heq : beam_parse_into_frame data f0 =
      beam_parse_into_frame (data.take (FRAME_SIZE (data.getD 2 0))) f0 by
    constructor
    · rw [heq]
      exact hok
    · exact heq
  by_cases hsmall : data.length ≤ FRAME_SIZE (data.getD 2 0)
  · rw [List.take_of_length_le hsmall]
  · obtain ⟨hmin', hmax', hsz', hcrc'⟩ := parse_ok_elim _ f0 hok
    have hg2 : (data.take (FRAME_SIZE (data.getD 2 0))).getD 2 0 = data.getD 2 0 :=
      getD_take _ 2 _ 0 (by rw [hfs]; omega)
    rw [hg2] at hmax' hsz' hcrc'
    have hg0 : (data.take (FRAME_SIZE (data.getD 2 0))).getD 0 0 = data.getD 0 0 :=
      getD_take _ 0 _ 0 (by rw [hfs]; omega)
    have hg1 : (data.take (FRAME_SIZE (data.getD 2 0))).getD 1 0 = data.getD 1 0 :=
      getD_take _ 1 _ 0 (by rw [hfs]; omega)
    have hglo : (data.take (FRAME_SIZE (data.getD 2 0))).getD
        (FRAME_HEADER_SIZE + data.getD 2 0) 0 =
        data.getD (FRAME_HEADER_SIZE + data.getD 2 0) 0 :=
      getD_take _ _ _ 0 (by simp only [hfs, FRAME_HEADER_SIZE]; omega)
    have hghi : (data.take (FRAME_SIZE (data.getD 2 0))).getD
        (FRAME_HEADER_SIZE + data.getD 2 0 + 1) 0 =
        data.getD (FRAME_HEADER_SIZE + data.getD 2 0 + 1) 0 :=
      getD_take _ _ _ 0 (by simp only [hfs, FRAME_HEADER_SIZE]; omega)
    have hcrceq : compute_frame_crc (data.take (FRAME_SIZE (data.getD 2 0)))
        (data.getD 2 0) = compute_frame_crc data (data.getD 2 0) := by
      unfold compute_frame_crc
      have hidx : min (FRAME_HEADER_SIZE + data.getD 2 0) (FRAME_SIZE (data.getD 2 0)) =
          FRAME_HEADER_SIZE + data.getD 2 0 := by
        simp only [hfs, FRAME_HEADER_SIZE]
        omega
      rw [List.take_take, hidx]
    rw [hglo, hghi, hcrceq] at hcrc'
    have hfill : fill_payload (data.getD 0 0)
        ((data.take (FRAME_SIZE (data.getD 2 0))).drop FRAME_HEADER_SIZE)
        (data.getD 2 0) f0.payload =
        fill_payload (data.getD 0 0) (data.drop FRAME_HEADER_SIZE)
          (data.getD 2 0) f0.payload := by
      apply fill_payload_take_congr
      rw [List.drop_take]
      have hidx2 : min (data.getD 2 0)
          (FRAME_SIZE (data.getD 2 0) - FRAME_HEADER_SIZE) = data.getD 2 0 := by
        simp only [hfs, FRAME_HEADER_SIZE]
        omega
      rw [List.take_take, hidx2]
    have hminD : BEAM_FRAME_MIN_SIZE ≤ data.length := by
      have h := hmin'
      rw [List.length_take] at h
      omega
    have hszD : FRAME_SIZE (data.getD 2 0) ≤ data.length := by omega
    have hszP : FRAME_SIZE (data.getD 2 0) ≤
        (data.take (FRAME_SIZE (data.getD 2 0))).length := by
      rw [List.length_take]
      omega
    rw [parse_ok_eval data f0 hminD hmax' hszD hcrc']
    rw [parse_ok_eval (data.take (FRAME_SIZE (data.getD 2 0))) f0 hmin'
      (by rw [hg2]; exact hmax')
      (by rw [hg2]; exact hszP)
      (by rw [hg2, hglo, hghi, hcrceq]; exact hcrc')]
    rw [hg0, hg1, hg2, hglo, hghi, hfill]

set_option maxRecDepth 8000 in
/-- C9 witness: a valid 6-byte frame (len 1) parses identically with a
trailing garbage byte appended. -/
theorem C9_trailing_bytes_ignored_witness :
    (beam_parse_into_frame
        (wire_bytes ⟨⟨9, 4, 1⟩, 42 :: List.replicate 199 0, 0⟩ ++ [77])
        ⟨⟨0, 0, 0⟩, List.replicate 200 0, 0⟩).1 = ESP_OK ∧
    beam_parse_into_frame
        (wire_bytes ⟨⟨9, 4, 1⟩, 42 :: List.replicate 199 0, 0⟩ ++ [77])
        ⟨⟨0, 0, 0⟩, List.replicate 200 0, 0⟩ =
      beam_parse_into_frame
        ((wire_bytes ⟨⟨9, 4, 1⟩, 42 :: List.replicate 199 0, 0⟩ ++ [77]).take
          (FRAME_SIZE ((wire_bytes ⟨⟨9, 4, 1⟩, 42 :: List.replicate 199 0, 0⟩ ++
            [77]).getD 2 0)))
        ⟨⟨0, 0, 0⟩, List.replicate 200 0, 0⟩ :=
  C9_trailing_bytes_ignored
    (wire_bytes ⟨⟨9, 4, 1⟩, 42 :: List.replicate 199 0, 0⟩ ++ [77])
    ⟨⟨0, 0, 0⟩, List.replicate 200 0, 0⟩ (by decide)

/-- C10: on a successful parse of a known-category frame whose declared
length strictly exceeds the typed size, only the first typed-size payload
bytes are stored in the output frame (the store past them keeps the output
frame's previous bytes), while the CRC that was verified covers all
`header + declared_len` bytes. -/
theorem C10_oversize_typed_payload (data : List Nat) (f0 : beam_frame)
    (hok : (beam_parse_into_frame data f0).1 = ESP_OK) :
    (data.getD 0 0 = MSG_ID_TELEMETRY → sizeof_telemetry < data.getD 2 0 →
      (beam_parse_into_frame data f0).2.payload =
        (data.drop FRAME_HEADER_SIZE).take sizeof_telemetry ++
          f0.payload.drop sizeof_telemetry) ∧
    (data.getD 0 0 = MSG_ID_BATTERY → sizeof_battery < data.getD 2 0 →
      (beam_parse_into_frame data f0).2.payload =
        (data.drop FRAME_HEADER_SIZE).take sizeof_battery ++
          f0.payload.drop sizeof_battery) ∧
    (∀ j d, data.getD 0 0 = MSG_ID_TELEMETRY → sizeof_telemetry ≤ j →
      (beam_parse_into_frame data f0).2.payload.getD j d = f0.payload.getD j d) ∧
    (∀ j d, data.getD 0 0 = MSG_ID_BATTERY → sizeof_battery ≤ j →
      (beam_parse_into_frame data f0).2.payload.getD j d = f0.payload.getD j d) ∧
    (beam_parse_into_frame data f0).2.crc = compute_frame_crc data (data.getD 2 0) := by
  obtain ⟨hmin, hmax, hsz, hcrc⟩ := parse_ok_elim data f0 hok
  have heval := parse_ok_eval data f0 hmin hmax hsz hcrc
  have hfs : FRAME_SIZE (data.getD 2 0) = 3 + data.getD 2 0 + 2 := rfl
  have h12 : sizeof_telemetry = 12 := rfl
  have h5 : sizeof_battery = 5 := rfl
  have hsrclen : (data.drop FRAME_HEADER_SIZE).length = data.length - 3 := by
    rw [List.length_drop]
    rfl
  simp only [heval]
  refine ⟨?_, ?_, ?_, ?_, ?_⟩
  · intro h0 hlt
    rw [h0]
    unfold fill_payload
    rw [if_pos rfl, if_pos (by omega)]
    unfold writeBytes
    congr 2
    rw [List.length_take]
    rw [hfs] at hsz
    omega
  · intro h0 hlt
    rw [h0]
    unfold fill_payload
    rw [if_neg (by norm_num [MSG_ID_BATTERY, MSG_ID_TELEMETRY]), if_pos rfl,
      if_pos (by omega)]
    unfold writeBytes
    congr 2
    rw [List.length_take]
    rw [hfs] at hsz
    omega
  · intro j d h0 hj
    rw [h0]
    unfold fill_payload
    rw [if_pos rfl]
    split_ifs with hc
    · exact writeBytes_getD_high _ _ j d (by rw [List.length_take]; omega)
    · exact writeBytes_getD_high _ _ j d (by rw [List.length_take]; omega)
  · intro j d h0 hj
    rw [h0]
    unfold fill_payload
    rw [if_neg (by norm_num [MSG_ID_BATTERY, MSG_ID_TELEMETRY]), if_pos rfl]
    split_ifs with hc
    · exact writeBytes_getD_high _ _ j d (by rw [List.length_take]; omega)
    · exact writeBytes_getD_high _ _ j d (by rw [List.length_take]; omega)
  · exact hcrc.symm

set_option maxRecDepth 8000 in
/-- C10 witness: a Telemetry frame with declared length 13 keeps only the
first 12 payload bytes; byte 12 of the output store keeps its prior value. -/
theorem C10_oversize_typed_payload_witness :
    (beam_parse_into_frame
        (wire_bytes ⟨⟨MSG_ID_TELEMETRY, 0, 13⟩,
          List.replicate 12 3 ++ 1 :: List.replicate 187 0, 0⟩)
        ⟨⟨0, 0, 0⟩, List.replicate 200 0, 0⟩).2.payload =
      ((wire_bytes ⟨⟨MSG_ID_TELEMETRY, 0, 13⟩,
          List.replicate 12 3 ++ 1 :: List.replicate 187 0, 0⟩).drop
        FRAME_HEADER_SIZE).take sizeof_telemetry ++
        (List.replicate 200 (0 : Nat)).drop sizeof_telemetry :=
  (C10_oversize_typed_payload
      (wire_bytes ⟨⟨MSG_ID_TELEMETRY, 0, 13⟩,
        List.replicate 12 3 ++ 1 :: List.replicate 187 0, 0⟩)
      ⟨⟨0, 0, 0⟩, List.replicate 200 0, 0⟩ (by decide)).1 (by decide) (by decide)

/-- C4: truncating a valid serialized frame to fewer than
`header_size + length + 2` bytes always yields `InvalidSize` — never
`InvalidCRC` (truncations below 5 bytes fail the minimum-size check, longer
ones fail the declared-size check; the CRC comparison is never reached). -/
theorem C4_truncation_invalid_size (data : List Nat) (f0 f1 : beam_frame)
    (t : Nat) (hvalid : (beam_parse_into_frame data f0).1 = ESP_OK)
    (ht : t < FRAME_SIZE (data.getD 2 0)) :
    beam_parse_into_frame (data.take t) f1 = (ESP_ERR_INVALID_SIZE, f1) := by
  obtain ⟨hmin, hmax, hsz, _⟩ := parse_ok_elim data f0 hvalid
  have hfs : FRAME_SIZE (data.getD 2 0) = 3 + data.getD 2 0 + 2 := rfl
  have hm5 : BEAM_FRAME_MIN_SIZE = 5 := rfl
  by_cases hshort : (data.take t).length < BEAM_FRAME_MIN_SIZE
  · exact parse_too_short_eval _ f1 hshort
  · have htl : (data.take t).length = min t data.length := List.length_take ..
    have ht5 : 5 ≤ t := by omega
    have hg2 : (data.take t).getD 2 0 = data.getD 2 0 := getD_take _ 2 t 0 (by omega)
    apply parse_bad_size_eval
    · omega
    · rw [hg2]
      exact hmax
    · rw [hg2]
      omega

/-- C4 witness: truncating a valid 5-byte frame to 4 bytes is rejected as
`InvalidSize`. -/
theorem C4_truncation_invalid_size_witness :
    beam_parse_into_frame
        ((wire_bytes ⟨⟨9, 0, 0⟩, List.replicate 200 0, 0⟩).take 4)
        ⟨⟨0, 0, 0⟩, List.replicate 200 0, 0⟩ =
      (ESP_ERR_INVALID_SIZE, ⟨⟨0, 0, 0⟩, List.replicate 200 0, 0⟩) :=
  C4_truncation_invalid_size (wire_bytes ⟨⟨9, 0, 0⟩, List.replicate 200 0, 0⟩)
    ⟨⟨0, 0, 0⟩, List.replicate 200 0, 0⟩ ⟨⟨0, 0, 0⟩, List.replicate 200 0, 0⟩ 4
    (by decide) (by decide)

/-- C6: a frame with `len = MAX_PAYLOAD_SIZE` serializes successfully into a
big-enough buffer and its serialization parses successfully; a buffer whose
header declares `len = MAX_PAYLOAD_SIZE + 1` is rejected with `InvalidSize`
whatever the remaining bytes are — in particular the result does not depend
on any CRC computation or on any byte beyond offset 2. -/
theorem C6_boundary_length :
    (∀ (f f0 : beam_frame) (buf : List Nat), f.Sane →
      f.header.len = MAX_PAYLOAD_SIZE → FRAME_SIZE MAX_PAYLOAD_SIZE ≤ buf.length →
      (beam_serialize_frame f buf).1 = ESP_OK ∧
        (beam_parse_into_frame (beam_serialize_frame f buf).2.1 f0).1 = ESP_OK) ∧
    (∀ (data : List Nat) (f0 : beam_frame), data.getD 2 0 = MAX_PAYLOAD_SIZE + 1 →
      beam_parse_into_frame data f0 = (ESP_ERR_INVALID_SIZE, f0)) := by
  constructor
  · intro f f0 buf hs hmaxlen hbuf
    have hlen : f.header.len ≤ MAX_PAYLOAD_SIZE := le_of_eq hmaxlen
    have hp : MAX_PAYLOAD_SIZE ≤ f.payload.length := le_of_eq hs.2.2.2.1.symm
    have heq : beam_serialize_frame f buf =
        (ESP_OK, wire_bytes f ++ buf.drop (FRAME_SIZE f.header.len),
          some (FRAME_SIZE f.header.len)) := by
      unfold beam_serialize_frame
      rw [if_neg (not_not_intro hlen)]
      exact serialize_frame_eq f buf hlen hp (by rw [hmaxlen]; exact hbuf)
    constructor
    · rw [heq]
    · rw [heq]
      rw [parse_wire_eq f f0 _ hlen hp]
  · intro data f0 hover
    exact parse_len_over_eval data f0 (by omega)

set_option maxRecDepth 16000 in
/-- C6 witness: a concrete 200-byte-payload frame round-trips, and a buffer
declaring length 201 is rejected as `InvalidSize`. -/
theorem C6_boundary_length_witness :
    ((beam_serialize_frame ⟨⟨9, 1, 200⟩, List.replicate 200 7, 0⟩
        (List.replicate 205 0)).1 = ESP_OK ∧
      (beam_parse_into_frame
        (beam_serialize_frame ⟨⟨9, 1, 200⟩, List.replicate 200 7, 0⟩
          (List.replicate 205 0)).2.1
        ⟨⟨0, 0, 0⟩, List.replicate 200 0, 0⟩).1 = ESP_OK) ∧
    beam_parse_into_frame [0, 0, 201, 5, 5] ⟨⟨0, 0, 0⟩, List.replicate 200 0, 0⟩ =
      (ESP_ERR_INVALID_SIZE, ⟨⟨0, 0, 0⟩, List.replicate 200 0, 0⟩) :=
  ⟨C6_boundary_length.1 ⟨⟨9, 1, 200⟩, List.replicate 200 7, 0⟩
      ⟨⟨0, 0, 0⟩, List.replicate 200 0, 0⟩ (List.replicate 205 0)
      (by decide) (by decide) (by decide),
    C6_boundary_length.2 [0, 0, 201, 5, 5] ⟨⟨0, 0, 0⟩, List.replicate 200 0, 0⟩
      (by decide)⟩

set_option maxRecDepth 8000 in
/-- C1 counterexample: the round-trip claim fails as stated. The Telemetry
frame with `len = 13` and payload byte 12 equal to 1 serializes and parses
back successfully, but the parsed frame's payload differs from the original
(byte 12 is dropped by the dispatcher), even though `len ≤ MAX_PAYLOAD_SIZE`
and the frame is well-typed. -/
theorem C1_roundtrip_counterexample :
    (⟨⟨MSG_ID_TELEMETRY, 0, 13⟩, List.replicate 12 0 ++ 1 :: List.replicate 187 0,
        0⟩ : beam_frame).Sane ∧
    (⟨⟨MSG_ID_TELEMETRY, 0, 13⟩, List.replicate 12 0 ++ 1 :: List.replicate 187 0,
        0⟩ : beam_frame).header.len ≤ MAX_PAYLOAD_SIZE ∧
    (beam_serialize_frame
        ⟨⟨MSG_ID_TELEMETRY, 0, 13⟩, List.replicate 12 0 ++ 1 :: List.replicate 187 0, 0⟩
        (List.replicate 20 0)).1 = ESP_OK ∧
    (beam_parse_into_frame
        (beam_serialize_frame
          ⟨⟨MSG_ID_TELEMETRY, 0, 13⟩, List.replicate 12 0 ++ 1 :: List.replicate 187 0, 0⟩
          (List.replicate 20 0)).2.1
        ⟨⟨0, 0, 0⟩, List.replicate 200 0, 0⟩).1 = ESP_OK ∧
    (beam_parse_into_frame
        (beam_serialize_frame
          ⟨⟨MSG_ID_TELEMETRY, 0, 13⟩, List.replicate 12 0 ++ 1 :: List.replicate 187 0, 0⟩
          (List.replicate 20 0)).2.1
        ⟨⟨0, 0, 0⟩, List.replicate 200 0, 0⟩).2.payload ≠
      List.replicate 12 0 ++ 1 :: List.replicate 187 0 := by
  refine ⟨by decide, by decide, by decide, by decide, by decide⟩

/-- C5 counterexample: the claim fails as stated. The valid 5-byte frame
`[9,0,0,crc_lo,crc_hi]` (len 0) parses `ESP_OK`, but flipping bit 0 of its
length byte (offset 2) makes the parser return `InvalidSize`, not
`InvalidCRC`: the flipped length byte declares a 1-byte payload, so the
5-byte buffer fails the declared-size check before any CRC comparison. -/
theorem C5_bitflip_counterexample :
    (beam_parse_into_frame (wire_bytes ⟨⟨9, 0, 0⟩, List.replicate 200 0, 0⟩)
        ⟨⟨0, 0, 0⟩, List.replicate 200 0, 0⟩).1 = ESP_OK ∧
    (beam_parse_into_frame
        ((wire_bytes ⟨⟨9, 0, 0⟩, List.replicate 200 0, 0⟩).set 2
          ((wire_bytes ⟨⟨9, 0, 0⟩, List.replicate 200 0, 0⟩).getD 2 0 ^^^ 1 <<< 0))
        ⟨⟨0, 0, 0⟩, List.replicate 200 0, 0⟩).1 = ESP_ERR_INVALID_SIZE := by
  refine ⟨by decide, by decide⟩

/-- C5 witness: flipping bit 0 of the msg_id byte of a valid 5-byte frame is
reported as a CRC mismatch. -/
theorem C5_bitflip_invalid_crc_witness :
    beam_parse_into_frame
        ((wire_bytes ⟨⟨9, 0, 0⟩, List.replicate 200 0, 0⟩).set 0
          ((wire_bytes ⟨⟨9, 0, 0⟩, List.replicate 200 0, 0⟩).getD 0 0 ^^^ 1 <<< 0))
        ⟨⟨1, 1, 1⟩, List.replicate 200 2, 0⟩ =
      (ESP_ERR_INVALID_CRC, ⟨⟨1, 1, 1⟩, List.replicate 200 2, 0⟩) :=
  C5_bitflip_invalid_crc (wire_bytes ⟨⟨9, 0, 0⟩, List.replicate 200 0, 0⟩)
    ⟨⟨0, 0, 0⟩, List.replicate 200 0, 0⟩ ⟨⟨1, 1, 1⟩, List.replicate 200 2, 0⟩ 0 0
    (by decide) (by decide) (by decide) (by decide) (by decide) (by decide)

/-- C1 (amended): serializing a well-typed frame `F` with
`len ≤ MAX_PAYLOAD_SIZE` into a big-enough buffer and parsing the result
succeeds and returns the same header fields, with the crc field equal to the
serialized CRC. The payload round-trips through the dispatcher: every stored
byte equals `F`'s byte — all `len` bytes when the category is unknown or
`len` is at most the typed size, but only the first typed-size bytes when a
known category declares more (the rest of the output store keeps the
destination frame's prior bytes) — which is exactly what the counterexample
forces. -/
theorem C1_roundtrip_amended (f f0 : beam_frame) (buf : List Nat)
    (hs : f.Sane) (hlen : f.header.len ≤ MAX_PAYLOAD_SIZE)
    (hbuf : FRAME_SIZE f.header.len ≤ buf.length) :
    (beam_serialize_frame f buf).1 = ESP_OK ∧
    beam_parse_into_frame (beam_serialize_frame f buf).2.1 f0 =
      (ESP_OK,
        { header := f.header
          payload := fill_payload f.header.msg_id f.payload f.header.len f0.payload
          crc := wire_crc f }) ∧
    (f.header.msg_id ≠ MSG_ID_TELEMETRY → f.header.msg_id ≠ MSG_ID_BATTERY →
      fill_payload f.header.msg_id f.payload f.header.len f0.payload =
        f.payload.take f.header.len ++ f0.payload.drop f.header.len) ∧
    (f.header.msg_id = MSG_ID_TELEMETRY → f.header.len ≤ sizeof_telemetry →
      fill_payload f.header.msg_id f.payload f.header.len f0.payload =
        f.payload.take f.header.len ++ f0.payload.drop f.header.len) ∧
    (f.header.msg_id = MSG_ID_BATTERY → f.header.len ≤ sizeof_battery →
      fill_payload f.header.msg_id f.payload f.header.len f0.payload =
        f.payload.take f.header.len ++ f0.payload.drop f.header.len) ∧
    (f.header.msg_id = MSG_ID_TELEMETRY → sizeof_telemetry ≤ f.header.len →
      fill_payload f.header.msg_id f.payload f.header.len f0.payload =
        f.payload.take sizeof_telemetry ++ f0.payload.drop sizeof_telemetry) ∧
    (f.header.msg_id = MSG_ID_BATTERY → sizeof_battery ≤ f.header.len →
      fill_payload f.header.msg_id f.payload f.header.len f0.payload =
        f.payload.take sizeof_battery ++ f0.payload.drop sizeof_battery) := by
  have hp : MAX_PAYLOAD_SIZE ≤ f.payload.length := le_of_eq hs.2.2.2.1.symm
  have h12 : sizeof_telemetry = 12 := rfl
  have h5 : sizeof_battery = 5 := rfl
  have hmp : MAX_PAYLOAD_SIZE = 200 := rfl
  have heq : beam_serialize_frame f buf =
      (ESP_OK, wire_bytes f ++ buf.drop (FRAME_SIZE f.header.len),
        some (FRAME_SIZE f.header.len)) := by
    unfold beam_serialize_frame
    rw [if_neg (not_not_intro hlen)]
    exact serialize_frame_eq f buf hlen hp hbuf
  refine ⟨by rw [heq], by rw [heq]; exact parse_wire_eq f f0 _ hlen hp,
    ?_, ?_, ?_, ?_, ?_⟩
  · intro h1 h2
    unfold fill_payload
    rw [if_neg h1, if_neg h2]
    unfold writeBytes
    congr 2
    rw [List.length_take]
    omega
  · intro h1 h2
    unfold fill_payload
    rw [if_pos h1]
    split_ifs with hc
    · have hl : f.header.len = sizeof_telemetry := by omega
      rw [hl]
      unfold writeBytes
      congr 2
      rw [List.length_take]
      omega
    · unfold writeBytes
      congr 2
      rw [List.length_take]
      omega
  · intro h1 h2
    unfold fill_payload
    rw [if_neg (by rw [h1]; norm_num [MSG_ID_BATTERY, MSG_ID_TELEMETRY]), if_pos h1]
    split_ifs with hc
    · have hl : f.header.len = sizeof_battery := by omega
      rw [hl]
      unfold writeBytes
      congr 2
      rw [List.length_take]
      omega
    · unfold writeBytes
      congr 2
      rw [List.length_take]
      omega
  · intro h1 h2
    unfold fill_payload
    rw [if_pos h1, if_pos h2]
    unfold writeBytes
    congr 2
    rw [List.length_take]
    omega
  · intro h1 h2
    unfold fill_payload
    rw [if_neg (by rw [h1]; norm_num [MSG_ID_BATTERY, MSG_ID_TELEMETRY]), if_pos h1,
      if_pos h2]
    unfold writeBytes
    congr 2
    rw [List.length_take]
    omega

set_option maxRecDepth 8000 in
/-- C1 witness: the amended round-trip evaluated on a concrete
unknown-category frame. -/
theorem C1_roundtrip_amended_witness :
    (beam_serialize_frame ⟨⟨9, 4, 2⟩, 10 :: 20 :: List.replicate 198 0, 0⟩
        (List.replicate 9 0)).1 = ESP_OK ∧
    beam_parse_into_frame
        (beam_serialize_frame ⟨⟨9, 4, 2⟩, 10 :: 20 :: List.replicate 198 0, 0⟩
          (List.replicate 9 0)).2.1 ⟨⟨0, 0, 0⟩, List.replicate 200 1, 0⟩ =
      (ESP_OK,
        { header := (⟨⟨9, 4, 2⟩, 10 :: 20 :: List.replicate 198 0, 0⟩ : beam_frame).header
          payload := fill_payload 9 (10 :: 20 :: List.replicate 198 0) 2
            (List.replicate 200 1)
          crc := wire_crc ⟨⟨9, 4, 2⟩, 10 :: 20 :: List.replicate 198 0, 0⟩ }) ∧
    fill_payload 9 (10 :: 20 :: List.replicate 198 0) 2 (List.replicate 200 1) =
      (10 :: 20 :: List.replicate 198 0).take 2 ++
        (List.replicate 200 (1 : Nat)).drop 2 :=
  ⟨(C1_roundtrip_amended ⟨⟨9, 4, 2⟩, 10 :: 20 :: List.replicate 198 0, 0⟩
      ⟨⟨0, 0, 0⟩, List.replicate 200 1, 0⟩ (List.replicate 9 0)
      (by decide) (by decide) (by decide)).1,
    (C1_roundtrip_amended ⟨⟨9, 4, 2⟩, 10 :: 20 :: List.replicate 198 0, 0⟩
      ⟨⟨0, 0, 0⟩, List.replicate 200 1, 0⟩ (List.replicate 9 0)
      (by decide) (by decide) (by decide)).2.1,
    (C1_roundtrip_amended ⟨⟨9, 4, 2⟩, 10 :: 20 :: List.replicate 198 0, 0⟩
      ⟨⟨0, 0, 0⟩, List.replicate 200 1, 0⟩ (List.replicate 9 0)
      (by decide) (by decide) (by decide)).2.2.1 (by decide) (by decide)⟩

end Beam
